import Mathlib

/-!
Verification of the versioned-object store, schema-reference walker,
reference tracker, mail task handler and object-share model of the
sampledb repository (`sampledb/logic/objects.py`,
`sampledb/logic/background_tasks/send_mail.py`, `sampledb/models/shares.py`).

The logic layer of `objects.py` is translated function by function.  Its
collaborators (the `Objects` table abstraction, the action/user resolvers,
the object/user audit logs and the permissions service) are not part of the
source excerpt; they are modelled from the specification's contracts as
operations on an explicit database state `DBState`.
-/

namespace SampleDB

/-- A JSON-like value, as stored in an object's `data` column. -/
inductive JsonValue where
  | null
  | num (n : Nat)
  | str (s : String)
  | boolean (b : Bool)
  | obj (fields : List (String × JsonValue))
  | arr (elems : List JsonValue)
  deriving Repr

/-- A JSON-Schema-like type descriptor.  The Python code dispatches on the
`type` field of a schema dict: `"object"` schemas carry a `properties` dict
(modelled as an association list in declaration order), `"array"` schemas
carry an `items` schema, and every other type tag is a leaf. -/
inductive Schema where
  | objectSchema (properties : List (String × Schema))
  | arraySchema (items : Schema)
  | leafSchema (ty : String)
  deriving Repr

/-- A path component produced by the walker: a dict key or a list index. -/
inductive PathElement where
  | key (s : String)
  | idx (n : Nat)
  deriving Repr, DecidableEq

mutual

def jsonBeq : JsonValue → JsonValue → Bool
  | JsonValue.null, JsonValue.null => true
  | JsonValue.num a, JsonValue.num b => a == b
  | JsonValue.str a, JsonValue.str b => a == b
  | JsonValue.boolean a, JsonValue.boolean b => a == b
  | JsonValue.obj fs, JsonValue.obj gs => jsonFieldsBeq fs gs
  | JsonValue.arr xs, JsonValue.arr ys => jsonListBeq xs ys
  | _, _ => false

def jsonFieldsBeq : List (String × JsonValue) → List (String × JsonValue) → Bool
  | [], [] => true
  | (k, v) :: rest, (k', v') :: rest' => k == k' && jsonBeq v v' && jsonFieldsBeq rest rest'
  | _, _ => false

def jsonListBeq : List JsonValue → List JsonValue → Bool
  | [], [] => true
  | x :: xs, y :: ys => jsonBeq x y && jsonListBeq xs ys
  | _, _ => false

end

mutual

def jsonBeq_iff : ∀ (a b : JsonValue), jsonBeq a b = true ↔ a = b
  | JsonValue.null, b => by cases b <;> simp [jsonBeq]
  | JsonValue.num a, b => by cases b <;> simp [jsonBeq]
  | JsonValue.str a, b => by cases b <;> simp [jsonBeq]
  | JsonValue.boolean a, b => by cases b <;> simp [jsonBeq]
  | JsonValue.obj fs, b => by
      cases b <;> simp [jsonBeq]
      exact jsonFieldsBeq_iff fs _
  | JsonValue.arr xs, b => by
      cases b <;> simp [jsonBeq]
      exact jsonListBeq_iff xs _

def jsonFieldsBeq_iff : ∀ (a b : List (String × JsonValue)), jsonFieldsBeq a b = true ↔ a = b
  | [], b => by cases b <;> simp [jsonFieldsBeq]
  | (k, v) :: rest, [] => by simp [jsonFieldsBeq]
  | (k, v) :: rest, (k', v') :: rest' => by
      simp [jsonFieldsBeq, jsonBeq_iff v v', jsonFieldsBeq_iff rest rest', and_assoc]

def jsonListBeq_iff : ∀ (a b : List JsonValue), jsonListBeq a b = true ↔ a = b
  | [], b => by cases b <;> simp [jsonListBeq]
  | x :: xs, [] => by simp [jsonListBeq]
  | x :: xs, y :: ys => by
      simp [jsonListBeq, jsonBeq_iff x y, jsonListBeq_iff xs ys]

end

instance : DecidableEq JsonValue := fun a b =>
  decidable_of_iff (jsonBeq a b = true) (jsonBeq_iff a b)

instance {e a : Type} [DecidableEq e] [DecidableEq a] : DecidableEq (Except e a) := fun x y =>
  match x, y with
  | Except.ok v, Except.ok w => decidable_of_iff (v = w) (by simp)
  | Except.error v, Except.error w => decidable_of_iff (v = w) (by simp)
  | Except.ok _, Except.error _ => isFalse (by simp)
  | Except.error _, Except.ok _ => isFalse (by simp)

mutual

def schemaBeq : Schema → Schema → Bool
  | Schema.objectSchema ps, Schema.objectSchema qs => schemaPropsBeq ps qs
  | Schema.arraySchema s, Schema.arraySchema t => schemaBeq s t
  | Schema.leafSchema a, Schema.leafSchema b => a == b
  | _, _ => false

def schemaPropsBeq : List (String × Schema) → List (String × Schema) → Bool
  | [], [] => true
  | (k, v) :: rest, (k', v') :: rest' => k == k' && schemaBeq v v' && schemaPropsBeq rest rest'
  | _, _ => false

end

mutual

def schemaBeq_iff : ∀ (a b : Schema), schemaBeq a b = true ↔ a = b
  | Schema.objectSchema ps, b => by
      cases b <;> simp [schemaBeq]
      exact schemaPropsBeq_iff ps _
  | Schema.arraySchema s, b => by
      cases b <;> simp [schemaBeq]
      exact schemaBeq_iff s _
  | Schema.leafSchema a, b => by cases b <;> simp [schemaBeq]

def schemaPropsBeq_iff : ∀ (a b : List (String × Schema)), schemaPropsBeq a b = true ↔ a = b
  | [], b => by cases b <;> simp [schemaPropsBeq]
  | (k, v) :: rest, [] => by simp [schemaPropsBeq]
  | (k, v) :: rest, (k', v') :: rest' => by
      simp [schemaPropsBeq, schemaBeq_iff v v', schemaPropsBeq_iff rest rest', and_assoc]

end

instance : DecidableEq Schema := fun a b =>
  decidable_of_iff (schemaBeq a b = true) (schemaBeq_iff a b)

/-- Dict lookup `data[name]`; `none` when `data` is not a mapping or lacks
the key (the walker's `property_name in data` test combined with the
subsequent `data[property_name]` access). -/
def getField : JsonValue → String → Option JsonValue
  | JsonValue.obj fields, name => fields.lookup name
  | _, _ => none

/-- Iteration of `enumerate(data)` in the array branch of
`iter_object_properties`: applies the recursive walk `f` to each element,
using the element's numeric index as the new path component. -/
def iterElems (f : List PathElement → JsonValue → List (List PathElement × Schema × JsonValue))
    (path : List PathElement) (i : Nat) :
    List JsonValue → List (List PathElement × Schema × JsonValue)
  | [] => []
  | item :: rest => f (path ++ [PathElement.idx i]) item ++ iterElems f path (i + 1) rest

mutual

/-- The inner generator `iter_object_properties(previous_path, schema, data)`
of `_get_object_properties` in `logic/objects.py`: `object` schemas recurse
into each declared property that is present in the data, `array` schemas
recurse into each element of the data, and any other schema type yields the
leaf `(path, schema, data)`. -/
def iterProps (path : List PathElement) (schema : Schema) (data : JsonValue) :
    List (List PathElement × Schema × JsonValue) :=
  match schema with
  | Schema.objectSchema props => iterPropsFields path props data
  | Schema.arraySchema items =>
    match data with
    | JsonValue.arr elems => iterElems (fun p d => iterProps p items d) path 0 elems
    | _ => []
  | Schema.leafSchema ty => [(path, Schema.leafSchema ty, data)]
termination_by structural schema

/-- The loop `for property_name in schema['properties']` of the `object`
branch: properties declared in the schema but missing from the data are
skipped silently via the `if property_name in data` test. -/
def iterPropsFields (path : List PathElement) (props : List (String × Schema)) (data : JsonValue) :
    List (List PathElement × Schema × JsonValue) :=
  match props with
  | [] => []
  | (name, s) :: rest =>
    (match getField data name with
     | some v => iterProps (path ++ [PathElement.key name]) s v
     | none => []) ++ iterPropsFields path rest data
termination_by structural props

end

/-- Action categories; `logic/objects.py` compares against
`ActionType.MEASUREMENT`. -/
inductive ActionType where
  | MEASUREMENT
  | SAMPLE
  | OTHER
  deriving Repr, DecidableEq

/-- Modelled from the spec: an Action exposes a schema and a category
(`.type`). -/
structure Action where
  schema : Schema
  type : ActionType
  deriving Repr, DecidableEq

/-- One stored version of an object, as returned by the persistence layer. -/
structure Object where
  object_id : Nat
  version_id : Nat
  action_id : Nat
  user_id : Nat
  data : JsonValue
  schema : Schema
  deriving Repr, DecidableEq

/-- Events appended to the object audit log (the `object_log` collaborator). -/
inductive ObjectLogEvent where
  | createObject (object_id user_id : Nat)
  | editObject (object_id user_id version_id : Nat)
  | restoreObjectVersion (object_id user_id restored_version_id version_id : Nat)
  | useObjectInMeasurement (object_id user_id measurement_id : Nat)
  deriving Repr, DecidableEq

/-- Events appended to the user audit log (the `user_log` collaborator). -/
inductive UserLogEvent where
  | createObject (object_id user_id : Nat)
  | editObject (user_id object_id version_id : Nat)
  | restoreObjectVersion (user_id object_id restored_version_id version_id : Nat)
  deriving Repr, DecidableEq

/-- The "not found" error taxonomy of `logic/errors.py` raised by the
logic layer. -/
inductive Err where
  | ObjectDoesNotExistError
  | ObjectVersionDoesNotExistError
  | ActionDoesNotExistError
  | UserDoesNotExistError
  deriving Repr, DecidableEq

/-- The explicit database state behind the persistence layer and the
collaborators: all stored object versions (in insertion order), the
fresh-object-id counter, the action and user tables, both audit logs, and
the set of objects given initial permissions. -/
structure DBState where
  objects : List Object
  next_object_id : Nat
  actions : List (Nat × Action)
  users : List Nat
  objectLog : List ObjectLogEvent
  userLog : List UserLogEvent
  initialPermissions : List Nat
  deriving Repr, DecidableEq

/-- All stored versions of one object, in insertion (hence chronological)
order. -/
def objectVersions (st : DBState) (object_id : Nat) : List Object :=
  st.objects.filter (fun o => o.object_id == object_id)

/-- Modelled from the spec: `actions.get_action(action_id)` resolves an
action or fails with `ActionDoesNotExistError`. -/
def get_action (st : DBState) (action_id : Nat) : Except Err Action :=
  match st.actions.lookup action_id with
  | some a => Except.ok a
  | none => Except.error Err.ActionDoesNotExistError

/-- Modelled from the spec: `users.get_user(user_id)` resolves a user or
fails with `UserDoesNotExistError`. -/
def get_user (st : DBState) (user_id : Nat) : Except Err Nat :=
  if st.users.contains user_id then Except.ok user_id
  else Except.error Err.UserDoesNotExistError

/-- Modelled from the spec: passing `schema=None` to the store lets it
resolve the schema from the action.  The missing-action fallback is
irrelevant: every modelled flow checks the action first. -/
def actionSchema (st : DBState) (action_id : Nat) : Schema :=
  match st.actions.lookup action_id with
  | some a => a.schema
  | none => Schema.objectSchema []

/-- One step of scanning for the stored version with the maximal
`version_id`. -/
def currentAccum (acc : Option Object) (o : Object) : Option Object :=
  match acc with
  | none => some o
  | some a => if a.version_id < o.version_id then some o else some a

namespace Objects

/-- Modelled from the spec: `Objects.create_object` persists version 0 of a
new object under a fresh object id, with the action-resolved schema when
`schema` is `None`. -/
def create_object (st : DBState) (data : JsonValue) (schema : Option Schema)
    (user_id action_id : Nat) : DBState × Object :=
  let sch := match schema with
    | some s => s
    | none => actionSchema st action_id
  let obj : Object :=
    { object_id := st.next_object_id, version_id := 0, action_id := action_id,
      user_id := user_id, data := data, schema := sch }
  ({ st with objects := st.objects ++ [obj], next_object_id := st.next_object_id + 1 }, obj)

/-- Modelled from the spec: the current object is the stored version with
the maximum `version_id`, or `None` when the object has no versions. -/
def get_current_object (st : DBState) (object_id : Nat) : Option Object :=
  (objectVersions st object_id).foldl currentAccum none

/-- Modelled from the spec: `Objects.update_object` persists a new version
numbered `max_version + 1` (returning `None` when the object does not
exist), with the action-resolved schema when `schema` is `None`. -/
def update_object (st : DBState) (object_id : Nat) (data : JsonValue)
    (schema : Option Schema) (user_id : Nat) : Option (DBState × Object) :=
  match get_current_object st object_id with
  | none => none
  | some cur =>
    let sch := match schema with
      | some s => s
      | none => actionSchema st cur.action_id
    let obj : Object :=
      { object_id := object_id, version_id := cur.version_id + 1, action_id := cur.action_id,
        user_id := user_id, data := data, schema := sch }
    some ({ st with objects := st.objects ++ [obj] }, obj)

/-- Modelled from the spec: look up one specific stored version. -/
def get_object_version (st : DBState) (object_id version_id : Nat) : Option Object :=
  (objectVersions st object_id).find? (fun o => o.version_id == version_id)

/-- Modelled from the spec: all stored versions of the object, oldest to
newest.  Versions are only ever appended, so insertion order is
chronological order. -/
def get_object_versions (st : DBState) (object_id : Nat) : List Object :=
  objectVersions st object_id

end Objects

namespace object_log

def create_object (st : DBState) (object_id user_id : Nat) : DBState :=
  { st with objectLog := st.objectLog ++ [ObjectLogEvent.createObject object_id user_id] }

def edit_object (st : DBState) (object_id user_id version_id : Nat) : DBState :=
  { st with objectLog := st.objectLog ++ [ObjectLogEvent.editObject object_id user_id version_id] }

def restore_object_version (st : DBState) (object_id user_id restored_version_id version_id : Nat) :
    DBState :=
  { st with objectLog := st.objectLog ++
      [ObjectLogEvent.restoreObjectVersion object_id user_id restored_version_id version_id] }

def use_object_in_measurement (st : DBState) (object_id user_id measurement_id : Nat) : DBState :=
  { st with objectLog := st.objectLog ++
      [ObjectLogEvent.useObjectInMeasurement object_id user_id measurement_id] }

end object_log

namespace user_log

def create_object (st : DBState) (object_id user_id : Nat) : DBState :=
  { st with userLog := st.userLog ++ [UserLogEvent.createObject object_id user_id] }

def edit_object (st : DBState) (user_id object_id version_id : Nat) : DBState :=
  { st with userLog := st.userLog ++ [UserLogEvent.editObject user_id object_id version_id] }

def restore_object_version (st : DBState) (user_id object_id restored_version_id version_id : Nat) :
    DBState :=
  { st with userLog := st.userLog ++
      [UserLogEvent.restoreObjectVersion user_id object_id restored_version_id version_id] }

end user_log

namespace permissions

def set_initial_permissions (st : DBState) (obj : Object) : DBState :=
  { st with initialPermissions := st.initialPermissions ++ [obj.object_id] }

end permissions

/-- Translation of `get_object(object_id, version_id=None)` from
`logic/objects.py`. -/
def get_object (st : DBState) (object_id : Nat) (version_id : Option Nat) : Except Err Object :=
  match version_id with
  | none =>
    match Objects.get_current_object st object_id with
    | none => Except.error Err.ObjectDoesNotExistError
    | some o => Except.ok o
  | some vid =>
    match Objects.get_object_version st object_id vid with
    | some o => Except.ok o
    | none =>
      match Objects.get_current_object st object_id with
      | none => Except.error Err.ObjectDoesNotExistError
      | some _ => Except.error Err.ObjectVersionDoesNotExistError

/-- Translation of `get_object_versions(object_id)` from `logic/objects.py`. -/
def get_object_versions (st : DBState) (object_id : Nat) : Except Err (List Object) :=
  let object_versions := Objects.get_object_versions st object_id
  if object_versions.isEmpty then Except.error Err.ObjectDoesNotExistError
  else Except.ok object_versions

/-- Translation of `_get_object_properties(object)` from `logic/objects.py`. -/
def _get_object_properties (obj : Object) : List (List PathElement × Schema × JsonValue) :=
  iterProps [] obj.schema obj.data

/-- The guarded read of a sample leaf's reference, as in
`data is not None and data['object_id'] is not None` followed by taking
`data['object_id']`.  Data is assumed to fit the schema, so a sample leaf
is `null` or a mapping carrying an `object_id` key. -/
def leafObjectId (data : JsonValue) : Option Nat :=
  match data with
  | JsonValue.null => none
  | d =>
    match getField d "object_id" with
    | some (JsonValue.num n) => some n
    | _ => none

/-- The loop `for path_element in path: previous_data = previous_data[path_element]`,
with `KeyError`/`IndexError` mapped to `none`. -/
def walkPath : JsonValue → List PathElement → Option JsonValue
  | d, [] => some d
  | d, pe :: rest =>
    match d, pe with
    | JsonValue.obj fields, PathElement.key s =>
      match fields.lookup s with
      | some v => walkPath v rest
      | none => none
    | JsonValue.arr elems, PathElement.idx n =>
      match elems.get? n with
      | some v => walkPath v rest
      | none => none
    | _, _ => none

/-- Reading the previous reference out of the preceding version's data: walk
to the same path (traversal errors mean "no previous reference") and read
the guarded `object_id`. -/
def previousRefIn (prevData : JsonValue) (path : List PathElement) : Option Nat :=
  match walkPath prevData path with
  | none => none
  | some pd => leafObjectId pd

/-- One iteration of the property loop in `_update_object_references`: for a
`sample`-typed leaf with a non-null current reference, compute the previous
reference (via `get_object` on the preceding version when `version_id > 0`)
and append a "used in measurement" event to the object log when the
reference changed and the action category is measurement. -/
def processSampleProperty (obj : Object) (user_id : Nat) (action_type : ActionType)
    (st : DBState) (prop : List PathElement × Schema × JsonValue) : Except Err DBState :=
  match prop with
  | (path, schema, data) =>
    if schema = Schema.leafSchema "sample" then
      match leafObjectId data with
      | none => Except.ok st
      | some referenced_object_id =>
        match
          (if obj.version_id > 0 then
            match get_object st obj.object_id (some (obj.version_id - 1)) with
            | Except.error e => Except.error e
            | Except.ok previous_object_version =>
              Except.ok (previousRefIn previous_object_version.data path)
          else Except.ok none : Except Err (Option Nat)) with
        | Except.error e => Except.error e
        | Except.ok previous_referenced_object_id =>
          if some referenced_object_id ≠ previous_referenced_object_id then
            if action_type = ActionType.MEASUREMENT then
              Except.ok (object_log.use_object_in_measurement st referenced_object_id user_id obj.object_id)
            else Except.ok st
          else Except.ok st
    else Except.ok st

/-- Translation of `_update_object_references(object, user_id)` from
`logic/objects.py`. -/
def _update_object_references (st : DBState) (obj : Object) (user_id : Nat) :
    Except Err DBState :=
  match get_action st obj.action_id with
  | Except.error e => Except.error e
  | Except.ok action =>
    List.foldlM (processSampleProperty obj user_id action.type) st (_get_object_properties obj)

/-- Translation of `create_object(action_id, data, user_id)` from
`logic/objects.py`.  The `IntegrityError` re-raise is a no-op and the
modelled store never raises it (fresh ids cannot collide). -/
def create_object (st : DBState) (action_id : Nat) (data : JsonValue) (user_id : Nat) :
    Except Err (DBState × Object) :=
  match get_action st action_id with
  | Except.error e => Except.error e
  | Except.ok _ =>
    match get_user st user_id with
    | Except.error e => Except.error e
    | Except.ok _ =>
      match Objects.create_object st data none user_id action_id with
      | (st1, obj) =>
        let st2 := object_log.create_object st1 obj.object_id user_id
        let st3 := user_log.create_object st2 obj.object_id user_id
        match _update_object_references st3 obj user_id with
        | Except.error e => Except.error e
        | Except.ok st4 => Except.ok (permissions.set_initial_permissions st4 obj, obj)

/-- Translation of `update_object(object_id, data, user_id)` from
`logic/objects.py`. -/
def update_object (st : DBState) (object_id : Nat) (data : JsonValue) (user_id : Nat) :
    Except Err DBState :=
  match Objects.update_object st object_id data none user_id with
  | none => Except.error Err.ObjectDoesNotExistError
  | some (st1, obj) =>
    let st2 := user_log.edit_object st1 user_id obj.object_id obj.version_id
    let st3 := object_log.edit_object st2 obj.object_id user_id obj.version_id
    _update_object_references st3 obj user_id

/-- Translation of `restore_object_version(object_id, version_id, user_id)`
from `logic/objects.py`.  The inner `None` branch is unreachable: the
preceding `get_object` succeeded, so the object has a current version. -/
def restore_object_version (st : DBState) (object_id version_id user_id : Nat) :
    Except Err DBState :=
  match get_object st object_id (some version_id) with
  | Except.error e => Except.error e
  | Except.ok obj =>
    match Objects.update_object st object_id obj.data (some obj.schema) user_id with
    | none => Except.error Err.ObjectDoesNotExistError
    | some (st1, newObj) =>
      let st2 := user_log.restore_object_version st1 user_id object_id version_id newObj.version_id
      let st3 := object_log.restore_object_version st2 object_id user_id version_id newObj.version_id
      Except.ok st3

/-- The previous reference of a sample leaf, following the specification:
`null` for version 0, otherwise the guarded `object_id` found at the same
path in the immediately preceding version, with missing-path traversal
errors treated as "no previous reference". -/
def specPreviousRef (st : DBState) (obj : Object) (path : List PathElement) : Option Nat :=
  if obj.version_id = 0 then none
  else
    match Objects.get_object_version st obj.object_id (obj.version_id - 1) with
    | none => none
    | some previous_object_version => previousRefIn previous_object_version.data path

/-- The specification's emission rule for one walked property: a "used in
measurement" event for the referenced object is emitted exactly when the
property is a `sample` leaf with a non-null current reference, the action
category is measurement, and the current reference differs from the
previous one. -/
def specTrackerEvent (st : DBState) (obj : Object) (user_id : Nat) (action_type : ActionType)
    (prop : List PathElement × Schema × JsonValue) : Option ObjectLogEvent :=
  match prop with
  | (path, schema, data) =>
    if schema = Schema.leafSchema "sample" then
      match leafObjectId data with
      | none => none
      | some referenced_object_id =>
        if action_type = ActionType.MEASUREMENT ∧
            some referenced_object_id ≠ specPreviousRef st obj path then
          some (ObjectLogEvent.useObjectInMeasurement referenced_object_id user_id obj.object_id)
        else none
    else none

/-- The list of "used in measurement" events the specification requires a
single tracker run to emit, in walk order. -/
def specTrackerEvents (st : DBState) (obj : Object) (user_id : Nat) (action_type : ActionType) :
    List ObjectLogEvent :=
  (_get_object_properties obj).filterMap (specTrackerEvent st obj user_id action_type)

/-- Outcome of handing a message to the mail transport
(`mail.send` in `send_mail.py`): delivered, recipients refused
(`smtplib.SMTPRecipientsRefused`), or some other send failure. -/
inductive MailSendResult where
  | sent
  | recipientsRefused
  | otherFailure (e : Nat)
  deriving Repr, DecidableEq

/-- The `flask_mail.Message` built by `handle_send_mail_task`. -/
structure MailMessage where
  subject : String
  sender : String
  recipients : List String
  body : String
  html : String
  deriving Repr, DecidableEq

/-- The task's `data` mapping: `{subject, recipients, text, html}`. -/
structure MailData where
  subject : String
  recipients : List String
  text : String
  html : String
  deriving Repr, DecidableEq

/-- The message constructed from the task data and the configured
`MAIL_SENDER`. -/
def buildMessage (mail_sender : String) (data : MailData) : MailMessage :=
  { subject := data.subject, sender := mail_sender, recipients := data.recipients,
    body := data.text, html := data.html }

/-- Translation of `handle_send_mail_task(data)` from
`background_tasks/send_mail.py`, over an explicit transport behaviour:
`True` on success, `False` when the recipients are refused (the only caught
exception class), and any other failure propagates. -/
def handle_send_mail_task (send : MailMessage → MailSendResult) (mail_sender : String)
    (data : MailData) : Except Nat Bool :=
  match send (buildMessage mail_sender data) with
  | MailSendResult.sent => Except.ok true
  | MailSendResult.recipientsRefused => Except.ok false
  | MailSendResult.otherFailure e => Except.error e

/-- An `ObjectShare` row as its Python constructor leaves it: `utc_datetime`
is `none` while the column attribute is still unset. -/
structure ObjectShare where
  object_id : Nat
  component_id : Nat
  policy : JsonValue
  utc_datetime : Option Nat
  deriving Repr, DecidableEq

/-- Translation of `ObjectShare.__init__` from `models/shares.py`: the
`utc_datetime` attribute is assigned (to the current UTC time `now`) only
when the argument is `None`; otherwise no assignment happens and the
attribute stays unset. -/
def ObjectShare.construct (now : Nat) (object_id component_id : Nat) (policy : JsonValue)
    (utc_datetime : Option Nat) : ObjectShare :=
  { object_id := object_id, component_id := component_id, policy := policy,
    utc_datetime :=
      match utc_datetime with
      | none => some now
      | some _ => none }

/-- An initial database: action and user tables, no objects, no logs. -/
def initState (actions : List (Nat × Action)) (users : List Nat) : DBState :=
  { objects := [], next_object_id := 1, actions := actions, users := users,
    objectLog := [], userLog := [], initialPermissions := [] }

/-- One successful logic-layer operation on the store. -/
inductive OpStep : DBState → DBState → Prop where
  | create (st st' : DBState) (action_id : Nat) (data : JsonValue) (user_id : Nat) (obj : Object) :
      create_object st action_id data user_id = Except.ok (st', obj) → OpStep st st'
  | update (st st' : DBState) (object_id : Nat) (data : JsonValue) (user_id : Nat) :
      update_object st object_id data user_id = Except.ok st' → OpStep st st'
  | restore (st st' : DBState) (object_id version_id user_id : Nat) :
      restore_object_version st object_id version_id user_id = Except.ok st' → OpStep st st'

/-- States reachable from an initial database by successful operations. -/
def Reachable (st : DBState) : Prop :=
  ∃ actions users, Relation.ReflTransGen OpStep (initState actions users) st

/-- Every object's stored versions are, in order, numbered `0, 1, ..., N-1`. -/
def GaplessVersions (st : DBState) : Prop :=
  ∀ oid, (objectVersions st oid).map Object.version_id =
    List.range (objectVersions st oid).length

/-- All stored object ids are below the fresh-id counter. -/
def IdsBounded (st : DBState) : Prop :=
  ∀ o ∈ st.objects, o.object_id < st.next_object_id

/-- The store's data invariant. -/
def Inv (st : DBState) : Prop := GaplessVersions st ∧ IdsBounded st

/-- A measurement action schema with a single sample reference property. -/
def wSchema : Schema := Schema.objectSchema [("a", Schema.leafSchema "sample")]

/-- Data for `wSchema` referencing sample `n`. -/
def wData (n : Nat) : JsonValue :=
  JsonValue.obj [("a", JsonValue.obj [("object_id", JsonValue.num n)])]

/-- A measurement action. -/
def wAction : Action := { schema := wSchema, type := ActionType.MEASUREMENT }

def wActs : List (Nat × Action) := [(1, wAction)]

def wUsers : List Nat := [1]

/-- The empty database holding measurement action 1 and user 1. -/
def wSt0 : DBState := initState wActs wUsers

/-- Version 0 of object 1, referencing sample 5. -/
def wObj0 : Object :=
  { object_id := 1, version_id := 0, action_id := 1, user_id := 1,
    data := wData 5, schema := wSchema }

/-- The database after `create_object wSt0 1 (wData 5) 1`. -/
def wSt1 : DBState :=
  { objects := [wObj0], next_object_id := 2, actions := wActs, users := wUsers,
    objectLog := [ObjectLogEvent.createObject 1 1, ObjectLogEvent.useObjectInMeasurement 5 1 1],
    userLog := [UserLogEvent.createObject 1 1], initialPermissions := [1] }

/-- Version 1 of object 1, referencing sample 7. -/
def wObj1 : Object :=
  { object_id := 1, version_id := 1, action_id := 1, user_id := 1,
    data := wData 7, schema := wSchema }

/-- The intermediate state inside `update_object wSt1 1 (wData 7) 1`, right
before the reference tracker runs. -/
def wStMid : DBState :=
  { objects := [wObj0, wObj1], next_object_id := 2, actions := wActs, users := wUsers,
    objectLog := [ObjectLogEvent.createObject 1 1, ObjectLogEvent.useObjectInMeasurement 5 1 1,
      ObjectLogEvent.editObject 1 1 1],
    userLog := [UserLogEvent.createObject 1 1, UserLogEvent.editObject 1 1 1],
    initialPermissions := [1] }

/-- The database after `update_object wSt1 1 (wData 7) 1`. -/
def wSt2 : DBState :=
  { objects := [wObj0, wObj1], next_object_id := 2, actions := wActs, users := wUsers,
    objectLog := [ObjectLogEvent.createObject 1 1, ObjectLogEvent.useObjectInMeasurement 5 1 1,
      ObjectLogEvent.editObject 1 1 1, ObjectLogEvent.useObjectInMeasurement 7 1 1],
    userLog := [UserLogEvent.createObject 1 1, UserLogEvent.editObject 1 1 1],
    initialPermissions := [1] }

/-- The database after `restore_object_version wSt2 1 0 1`: a brand-new
version 2 copying version 0's data, restore events on both logs, and no
"used in measurement" event although the restored data references sample 5
while the previously current version referenced sample 7. -/
def wSt3 : DBState :=
  { objects := [wObj0, wObj1,
      { object_id := 1, version_id := 2, action_id := 1, user_id := 1,
        data := wData 5, schema := wSchema }],
    next_object_id := 2, actions := wActs, users := wUsers,
    objectLog := [ObjectLogEvent.createObject 1 1, ObjectLogEvent.useObjectInMeasurement 5 1 1,
      ObjectLogEvent.editObject 1 1 1, ObjectLogEvent.useObjectInMeasurement 7 1 1,
      ObjectLogEvent.restoreObjectVersion 1 1 0 2],
    userLog := [UserLogEvent.createObject 1 1, UserLogEvent.editObject 1 1 1,
      UserLogEvent.restoreObjectVersion 1 1 0 2],
    initialPermissions := [1] }

/-- Concrete mail-task data used as a witness input. -/
def wMailData : MailData :=
  { subject := "s", recipients := ["r"], text := "t", html := "h" }

theorem mem_objectVersions {st : DBState} {oid : Nat} {o : Object} :
    o ∈ objectVersions st oid ↔ o ∈ st.objects ∧ o.object_id = oid := by
  simp [objectVersions, List.mem_filter]

theorem foldl_currentAccum_some (l : List Object) (a : Object) :
    ∃ r, l.foldl currentAccum (some a) = some r ∧ (r = a ∨ r ∈ l) ∧ a.version_id ≤ r.version_id ∧
      ∀ o ∈ l, o.version_id ≤ r.version_id := by
  induction l generalizing a with
  | nil => exact ⟨a, rfl, Or.inl rfl, Nat.le_refl _, by simp⟩
  | cons x xs ih =>
    by_cases hx : a.version_id < x.version_id
    · obtain ⟨r, h1, h2, h3, h4⟩ := ih x
      have hstep : currentAccum (some a) x = some x := by simp [currentAccum, hx]
      refine ⟨r, ?_, ?_, ?_, ?_⟩
      · rw [List.foldl_cons, hstep]
        exact h1
      · rcases h2 with h | h
        · exact Or.inr (by simp [h])
        · exact Or.inr (by simp [h])
      · exact Nat.le_trans (Nat.le_of_lt hx) h3
      · intro o ho
        rcases List.mem_cons.mp ho with rfl | ho
        · exact h3
        · exact h4 o ho
    · obtain ⟨r, h1, h2, h3, h4⟩ := ih a
      have hstep : currentAccum (some a) x = some a := by simp [currentAccum, hx]
      refine ⟨r, ?_, ?_, h3, ?_⟩
      · rw [List.foldl_cons, hstep]
        exact h1
      · rcases h2 with h | h
        · exact Or.inl h
        · exact Or.inr (by simp [h])
      · intro o ho
        rcases List.mem_cons.mp ho with rfl | ho
        · exact Nat.le_trans (Nat.le_of_not_lt hx) h3
        · exact h4 o ho

theorem get_current_object_none_iff {st : DBState} {oid : Nat} :
    Objects.get_current_object st oid = none ↔ objectVersions st oid = [] := by
  unfold Objects.get_current_object
  cases h : objectVersions st oid with
  | nil => simp
  | cons x xs =>
    simp only [List.foldl_cons]
    have hx : currentAccum none x = some x := rfl
    rw [hx]
    obtain ⟨r, h1, _, _, _⟩ := foldl_currentAccum_some xs x
    simp [h1]

theorem get_current_object_spec {st : DBState} {oid : Nat} {cur : Object}
    (h : Objects.get_current_object st oid = some cur) :
    cur ∈ objectVersions st oid ∧ ∀ o ∈ objectVersions st oid, o.version_id ≤ cur.version_id := by
  unfold Objects.get_current_object at h
  cases hv : objectVersions st oid with
  | nil => rw [hv] at h; simp at h
  | cons x xs =>
    rw [hv] at h
    simp only [List.foldl_cons] at h
    have hx : currentAccum none x = some x := rfl
    rw [hx] at h
    obtain ⟨r, h1, h2, h3, h4⟩ := foldl_currentAccum_some xs x
    rw [h1] at h
    cases h
    constructor
    · rcases h2 with rfl | h2
      · exact List.mem_cons_self _ _
      · exact List.mem_cons_of_mem _ h2
    · intro o ho
      rcases List.mem_cons.mp ho with rfl | ho
      · exact h3
      · exact h4 o ho

theorem get_object_some_iff {st : DBState} {oid vid : Nat} {o : Object} :
    get_object st oid (some vid) = Except.ok o ↔
      Objects.get_object_version st oid vid = some o := by
  unfold get_object
  cases h : Objects.get_object_version st oid vid with
  | some x => simp [h]
  | none =>
    simp only [h]
    cases Objects.get_current_object st oid <;> simp

theorem specPreviousRef_congr {st st₂ : DBState} (h : st₂.objects = st.objects)
    (obj : Object) (path : List PathElement) :
    specPreviousRef st₂ obj path = specPreviousRef st obj path := by
  unfold specPreviousRef Objects.get_object_version objectVersions
  rw [h]

theorem specTrackerEvent_congr {st st₂ : DBState} (h : st₂.objects = st.objects)
    (obj : Object) (u : Nat) (ty : ActionType) (prop : List PathElement × Schema × JsonValue) :
    specTrackerEvent st₂ obj u ty prop = specTrackerEvent st obj u ty prop := by
  obtain ⟨path, schema, data⟩ := prop
  simp only [specTrackerEvent]
  rw [specPreviousRef_congr h]

theorem specTrackerEvents_congr {st st₂ : DBState} (h : st₂.objects = st.objects)
    (obj : Object) (u : Nat) (ty : ActionType) :
    specTrackerEvents st₂ obj u ty = specTrackerEvents st obj u ty := by
  unfold specTrackerEvents
  have he : specTrackerEvent st₂ obj u ty = specTrackerEvent st obj u ty :=
    funext (specTrackerEvent_congr h obj u ty)
  rw [he]

theorem processSampleProperty_ok {obj : Object} {u : Nat} {ty : ActionType}
    {st st' : DBState} {prop : List PathElement × Schema × JsonValue}
    (h : processSampleProperty obj u ty st prop = Except.ok st') :
    st' = { st with objectLog := st.objectLog ++ (specTrackerEvent st obj u ty prop).toList } := by
  obtain ⟨path, schema, data⟩ := prop
  simp only [processSampleProperty] at h
  simp only [specTrackerEvent]
  by_cases hs : schema = Schema.leafSchema "sample"
  · rw [if_pos hs] at h
    rw [if_pos hs]
    cases hid : leafObjectId data with
    | none =>
      simp only [hid] at h ⊢
      simp at h
      simp [← h]
    | some n =>
      simp only [hid] at h ⊢
      by_cases hv : 0 < obj.version_id
      · rw [if_pos hv] at h
        cases hg : get_object st obj.object_id (some (obj.version_id - 1)) with
        | error e =>
          simp only [hg] at h
          exact absurd h (by simp)
        | ok prev =>
          simp only [hg] at h
          have hprev : specPreviousRef st obj path = previousRefIn prev.data path := by
            unfold specPreviousRef
            rw [if_neg (Nat.pos_iff_ne_zero.mp hv)]
            rw [get_object_some_iff.mp hg]
          rw [hprev]
          by_cases hne : some n ≠ previousRefIn prev.data path
          · rw [if_pos hne] at h
            by_cases hm : ty = ActionType.MEASUREMENT
            · rw [if_pos hm] at h
              simp at h
              rw [if_pos ⟨hm, hne⟩]
              simp [← h, object_log.use_object_in_measurement]
            · rw [if_neg hm] at h
              simp at h
              rw [if_neg (fun hc => hm hc.1)]
              simp [← h]
          · rw [if_neg hne] at h
            simp at h
            rw [if_neg (fun hc => hne hc.2)]
            simp [← h]
      · rw [if_neg hv] at h
        have hprev : specPreviousRef st obj path = none := by
          unfold specPreviousRef
          rw [if_pos (Nat.eq_zero_of_not_pos hv)]
        rw [hprev]
        have hne : some n ≠ (none : Option Nat) := by simp
        simp only at h
        rw [if_pos hne] at h
        by_cases hm : ty = ActionType.MEASUREMENT
        · rw [if_pos hm] at h
          simp at h
          rw [if_pos ⟨hm, hne⟩]
          simp [← h, object_log.use_object_in_measurement]
        · rw [if_neg hm] at h
          simp at h
          rw [if_neg (fun hc => hm hc.1)]
          simp [← h]
  · rw [if_neg hs] at h
    rw [if_neg hs]
    simp at h
    simp [← h]

theorem foldlM_processSampleProperty_ok {obj : Object} {u : Nat} {ty : ActionType} :
    ∀ (props : List (List PathElement × Schema × JsonValue)) (st st' : DBState),
      List.foldlM (processSampleProperty obj u ty) st props = Except.ok st' →
      st' = { st with objectLog := st.objectLog ++ props.filterMap (specTrackerEvent st obj u ty) } := by
  intro props
  induction props with
  | nil =>
    intro st st' h
    have hss : st = st' := by simpa [List.foldlM, pure, Except.pure] using h
    subst hss
    simp
  | cons p rest ih =>
    intro st st' h
    rw [List.foldlM_cons] at h
    cases hp : processSampleProperty obj u ty st p with
    | error e =>
      rw [hp] at h
      simp [Bind.bind, Except.bind] at h
    | ok st1 =>
      rw [hp] at h
      simp only [Bind.bind, Except.bind] at h
      have h1 := processSampleProperty_ok hp
      subst h1
      have h2 := ih _ st' h
      have hc : specTrackerEvent
          { st with objectLog := st.objectLog ++ (specTrackerEvent st obj u ty p).toList }
          obj u ty = specTrackerEvent st obj u ty :=
        funext (specTrackerEvent_congr rfl obj u ty)
      rw [hc] at h2
      rw [h2]
      simp only [List.filterMap_cons]
      cases specTrackerEvent st obj u ty p <;> simp [List.append_assoc]

theorem update_references_ok_action {st : DBState} {obj : Object} {u : Nat} {st' : DBState}
    (h : _update_object_references st obj u = Except.ok st') :
    ∃ action, get_action st obj.action_id = Except.ok action := by
  unfold _update_object_references at h
  cases ha : get_action st obj.action_id with
  | error e =>
    rw [ha] at h
    exact absurd h (by simp)
  | ok a => exact ⟨a, rfl⟩

theorem update_references_ok {st : DBState} {obj : Object} {u : Nat} {action : Action}
    {st' : DBState} (ha : get_action st obj.action_id = Except.ok action)
    (h : _update_object_references st obj u = Except.ok st') :
    st' = { st with objectLog := st.objectLog ++ specTrackerEvents st obj u action.type } := by
  unfold _update_object_references at h
  rw [ha] at h
  unfold specTrackerEvents
  exact foldlM_processSampleProperty_ok _ _ _ h

theorem update_object_error {st : DBState} {oid u : Nat} {d : JsonValue}
    (h : Objects.get_current_object st oid = none) :
    update_object st oid d u = Except.error Err.ObjectDoesNotExistError := by
  unfold update_object Objects.update_object
  rw [h]

theorem update_object_ok {st : DBState} {oid u : Nat} {d : JsonValue} {st' : DBState}
    (h : update_object st oid d u = Except.ok st') :
    ∃ cur action newObj,
      Objects.get_current_object st oid = some cur ∧
      get_action st cur.action_id = Except.ok action ∧
      newObj = { object_id := oid, version_id := cur.version_id + 1, action_id := cur.action_id,
                 user_id := u, data := d, schema := actionSchema st cur.action_id } ∧
      st'.objects = st.objects ++ [newObj] ∧
      st'.next_object_id = st.next_object_id ∧
      st'.userLog = st.userLog ++ [UserLogEvent.editObject u oid (cur.version_id + 1)] ∧
      st'.objectLog = st.objectLog ++ [ObjectLogEvent.editObject oid u (cur.version_id + 1)] ++
        specTrackerEvents { st with objects := st.objects ++ [newObj] } newObj u action.type ∧
      st'.actions = st.actions ∧ st'.users = st.users ∧
      st'.initialPermissions = st.initialPermissions := by
  cases hc : Objects.get_current_object st oid with
  | none =>
    rw [update_object_error hc] at h
    exact absurd h (by simp)
  | some cur =>
    have heq : update_object st oid d u =
        _update_object_references
          { st with
            objects := st.objects ++
              [{ object_id := oid, version_id := cur.version_id + 1, action_id := cur.action_id,
                 user_id := u, data := d, schema := actionSchema st cur.action_id }],
            userLog := st.userLog ++ [UserLogEvent.editObject u oid (cur.version_id + 1)],
            objectLog := st.objectLog ++ [ObjectLogEvent.editObject oid u (cur.version_id + 1)] }
          { object_id := oid, version_id := cur.version_id + 1, action_id := cur.action_id,
            user_id := u, data := d, schema := actionSchema st cur.action_id } u := by
      unfold update_object Objects.update_object
      rw [hc]
      rfl
    rw [heq] at h
    obtain ⟨action, ha3⟩ := update_references_ok_action h
    have hch := update_references_ok ha3 h
    have ha : get_action st cur.action_id = Except.ok action := ha3
    subst hch
    have hco : specTrackerEvents
        { st with
          objects := st.objects ++
            [{ object_id := oid, version_id := cur.version_id + 1, action_id := cur.action_id,
               user_id := u, data := d, schema := actionSchema st cur.action_id }],
          userLog := st.userLog ++ [UserLogEvent.editObject u oid (cur.version_id + 1)],
          objectLog := st.objectLog ++ [ObjectLogEvent.editObject oid u (cur.version_id + 1)] }
        { object_id := oid, version_id := cur.version_id + 1, action_id := cur.action_id,
          user_id := u, data := d, schema := actionSchema st cur.action_id } u action.type =
        specTrackerEvents
        { st with
          objects := st.objects ++
            [{ object_id := oid, version_id := cur.version_id + 1, action_id := cur.action_id,
               user_id := u, data := d, schema := actionSchema st cur.action_id }] }
        { object_id := oid, version_id := cur.version_id + 1, action_id := cur.action_id,
          user_id := u, data := d, schema := actionSchema st cur.action_id } u action.type :=
      specTrackerEvents_congr rfl _ _ _
    refine ⟨cur, action,
      { object_id := oid, version_id := cur.version_id + 1, action_id := cur.action_id,
        user_id := u, data := d, schema := actionSchema st cur.action_id }, rfl, ha, rfl,
      ?_, ?_, ?_, ?_, ?_, ?_, ?_⟩ <;>
      simp [hco, List.append_assoc]

theorem get_user_ok {st : DBState} {u uu : Nat} (h : get_user st u = Except.ok uu) : uu = u := by
  by_cases hc : u ∈ st.users <;> simp [get_user, hc] at h
  exact h.symm

theorem create_object_error_action {st : DBState} {aid u : Nat} {d : JsonValue}
    (h : get_action st aid = Except.error Err.ActionDoesNotExistError) :
    create_object st aid d u = Except.error Err.ActionDoesNotExistError := by
  unfold create_object
  rw [h]

theorem create_object_ok {st : DBState} {aid u : Nat} {d : JsonValue} {st' : DBState} {obj : Object}
    (h : create_object st aid d u = Except.ok (st', obj)) :
    ∃ action,
      get_action st aid = Except.ok action ∧
      get_user st u = Except.ok u ∧
      obj = { object_id := st.next_object_id, version_id := 0, action_id := aid, user_id := u,
              data := d, schema := actionSchema st aid } ∧
      st'.objects = st.objects ++ [obj] ∧
      st'.next_object_id = st.next_object_id + 1 ∧
      st'.userLog = st.userLog ++ [UserLogEvent.createObject st.next_object_id u] ∧
      st'.objectLog = st.objectLog ++ [ObjectLogEvent.createObject st.next_object_id u] ++
        specTrackerEvents
          { st with objects := st.objects ++ [obj], next_object_id := st.next_object_id + 1 }
          obj u action.type ∧
      st'.actions = st.actions ∧ st'.users = st.users ∧
      st'.initialPermissions = st.initialPermissions ++ [st.next_object_id] := by
  unfold create_object at h
  cases ha : get_action st aid with
  | error e =>
    rw [ha] at h
    exact absurd h (by simp)
  | ok action =>
    rw [ha] at h
    cases hu : get_user st u with
    | error e =>
      rw [hu] at h
      exact absurd h (by simp)
    | ok uu =>
      rw [hu] at h
      replace h :
          (match _update_object_references
              { st with
                objects := st.objects ++
                  [{ object_id := st.next_object_id, version_id := 0, action_id := aid,
                     user_id := u, data := d, schema := actionSchema st aid }],
                next_object_id := st.next_object_id + 1,
                objectLog := st.objectLog ++ [ObjectLogEvent.createObject st.next_object_id u],
                userLog := st.userLog ++ [UserLogEvent.createObject st.next_object_id u] }
              { object_id := st.next_object_id, version_id := 0, action_id := aid,
                user_id := u, data := d, schema := actionSchema st aid } u with
            | Except.error e => Except.error e
            | Except.ok st4 =>
              Except.ok (permissions.set_initial_permissions st4
                { object_id := st.next_object_id, version_id := 0, action_id := aid,
                  user_id := u, data := d, schema := actionSchema st aid },
                { object_id := st.next_object_id, version_id := 0, action_id := aid,
                  user_id := u, data := d, schema := actionSchema st aid })) =
            Except.ok (st', obj) := h
      cases htr : _update_object_references
          { st with
            objects := st.objects ++
              [{ object_id := st.next_object_id, version_id := 0, action_id := aid,
                 user_id := u, data := d, schema := actionSchema st aid }],
            next_object_id := st.next_object_id + 1,
            objectLog := st.objectLog ++ [ObjectLogEvent.createObject st.next_object_id u],
            userLog := st.userLog ++ [UserLogEvent.createObject st.next_object_id u] }
          { object_id := st.next_object_id, version_id := 0, action_id := aid,
            user_id := u, data := d, schema := actionSchema st aid } u with
      | error e =>
        rw [htr] at h
        exact absurd h (by simp)
      | ok st4 =>
        rw [htr] at h
        simp only [Except.ok.injEq, Prod.mk.injEq] at h
        obtain ⟨hst', hobj⟩ := h
        have ha4 : get_action
            { st with
              objects := st.objects ++
                [{ object_id := st.next_object_id, version_id := 0, action_id := aid,
                   user_id := u, data := d, schema := actionSchema st aid }],
              next_object_id := st.next_object_id + 1,
              objectLog := st.objectLog ++ [ObjectLogEvent.createObject st.next_object_id u],
              userLog := st.userLog ++ [UserLogEvent.createObject st.next_object_id u] }
            (({ object_id := st.next_object_id, version_id := 0, action_id := aid,
                user_id := u, data := d, schema := actionSchema st aid } : Object).action_id) =
            Except.ok action := ha
        have hch := update_references_ok ha4 htr
        subst hch
        subst hobj
        have hco : specTrackerEvents
            { st with
              objects := st.objects ++
                [{ object_id := st.next_object_id, version_id := 0, action_id := aid,
                   user_id := u, data := d, schema := actionSchema st aid }],
              next_object_id := st.next_object_id + 1,
              objectLog := st.objectLog ++ [ObjectLogEvent.createObject st.next_object_id u],
              userLog := st.userLog ++ [UserLogEvent.createObject st.next_object_id u] }
            { object_id := st.next_object_id, version_id := 0, action_id := aid,
              user_id := u, data := d, schema := actionSchema st aid } u action.type =
            specTrackerEvents
            { st with
              objects := st.objects ++
                [{ object_id := st.next_object_id, version_id := 0, action_id := aid,
                   user_id := u, data := d, schema := actionSchema st aid }],
              next_object_id := st.next_object_id + 1 }
            { object_id := st.next_object_id, version_id := 0, action_id := aid,
              user_id := u, data := d, schema := actionSchema st aid } u action.type :=
          specTrackerEvents_congr rfl _ _ _
        refine ⟨action, rfl, ?_, rfl, ?_, ?_, ?_, ?_, ?_, ?_, ?_⟩ <;>
          simp [← hst', get_user_ok hu, hco, permissions.set_initial_permissions,
            List.append_assoc]


theorem restore_object_version_ok {st : DBState} {oid vid u : Nat} {st' : DBState}
    (h : restore_object_version st oid vid u = Except.ok st') :
    ∃ vObj cur,
      Objects.get_object_version st oid vid = some vObj ∧
      Objects.get_current_object st oid = some cur ∧
      st' = { st with
        objects := st.objects ++
          [{ object_id := oid, version_id := cur.version_id + 1, action_id := cur.action_id,
             user_id := u, data := vObj.data, schema := vObj.schema }],
        userLog := st.userLog ++ [UserLogEvent.restoreObjectVersion u oid vid (cur.version_id + 1)],
        objectLog := st.objectLog ++
          [ObjectLogEvent.restoreObjectVersion oid u vid (cur.version_id + 1)] } := by
  unfold restore_object_version at h
  cases hget : get_object st oid (some vid) with
  | error e =>
    rw [hget] at h
    exact absurd h (by simp)
  | ok vObj =>
    rw [hget] at h
    unfold Objects.update_object at h
    cases hc : Objects.get_current_object st oid with
    | none =>
      rw [hc] at h
      exact absurd h (by simp)
    | some cur =>
      rw [hc] at h
      refine ⟨vObj, cur, get_object_some_iff.mp hget, rfl, ?_⟩
      simp only [user_log.restore_object_version, object_log.restore_object_version] at h
      simp at h
      exact h.symm

theorem objectVersions_append {st st' : DBState} {o : Object}
    (h : st'.objects = st.objects ++ [o]) (oid : Nat) :
    objectVersions st' oid =
      objectVersions st oid ++ (if o.object_id = oid then [o] else []) := by
  unfold objectVersions
  rw [h, List.filter_append]
  by_cases ho : o.object_id = oid <;> simp [ho]

theorem current_is_top {st : DBState} {oid : Nat} {cur : Object}
    (hg : GaplessVersions st) (hc : Objects.get_current_object st oid = some cur) :
    cur.version_id + 1 = (objectVersions st oid).length := by
  obtain ⟨hmem, hmax⟩ := get_current_object_spec hc
  have hmap := hg oid
  have h1 : cur.version_id ∈ List.range (objectVersions st oid).length := by
    rw [← hmap]
    exact List.mem_map_of_mem _ hmem
  have hlt : cur.version_id < (objectVersions st oid).length := List.mem_range.mp h1
  have hpos : 0 < (objectVersions st oid).length :=
    List.length_pos.mpr (List.ne_nil_of_mem hmem)
  have h2 : (objectVersions st oid).length - 1 ∈
      (objectVersions st oid).map Object.version_id := by
    rw [hmap]
    exact List.mem_range.mpr (by omega)
  obtain ⟨p, hpmem, hpver⟩ := List.mem_map.mp h2
  have := hmax p hpmem
  omega

theorem inv_append_new {st st' : DBState} {o : Object} (hInv : Inv st)
    (hobj : st'.objects = st.objects ++ [o])
    (ho : o.object_id = st.next_object_id) (hv : o.version_id = 0)
    (hn : st'.next_object_id = st.next_object_id + 1) : Inv st' := by
  obtain ⟨hg, hb⟩ := hInv
  constructor
  · intro oid
    rw [objectVersions_append hobj]
    by_cases hoid : o.object_id = oid
    · have hempty : objectVersions st oid = [] := by
        by_contra hne
        obtain ⟨x, hx⟩ := List.exists_mem_of_ne_nil _ hne
        obtain ⟨hx1, hx2⟩ := mem_objectVersions.mp hx
        have := hb x hx1
        omega
      simp [hempty, hoid, hv]
      rfl
    · simp [hoid, hg oid]
  · intro x hx
    rw [hobj] at hx
    rcases List.mem_append.mp hx with hx | hx
    · have := hb x hx
      omega
    · simp at hx
      subst hx
      omega

theorem inv_append_next_version {st st' : DBState} {cur o : Object} {oid0 : Nat}
    (hInv : Inv st) (hc : Objects.get_current_object st oid0 = some cur)
    (hobj : st'.objects = st.objects ++ [o])
    (ho : o.object_id = oid0) (hv : o.version_id = cur.version_id + 1)
    (hn : st'.next_object_id = st.next_object_id) : Inv st' := by
  obtain ⟨hg, hb⟩ := hInv
  have htop := current_is_top hg hc
  constructor
  · intro oid
    rw [objectVersions_append hobj]
    by_cases hoid : o.object_id = oid
    · have hoe : oid = oid0 := by omega
      subst hoe
      rw [if_pos hoid, List.map_append, hg oid]
      simp [hv, htop, ← List.range_succ]
    · simp [hoid, hg oid]
  · intro x hx
    rw [hobj] at hx
    rcases List.mem_append.mp hx with hx | hx
    · have := hb x hx
      omega
    · simp at hx
      subst hx
      obtain ⟨hmem, _⟩ := get_current_object_spec hc
      obtain ⟨hm1, hm2⟩ := mem_objectVersions.mp hmem
      have := hb cur hm1
      omega

theorem inv_init (actions : List (Nat × Action)) (users : List Nat) :
    Inv (initState actions users) := by
  constructor
  · intro oid
    simp [objectVersions, initState]
  · intro o ho
    simp [initState] at ho

theorem inv_step {st st' : DBState} (h : OpStep st st') (hInv : Inv st) : Inv st' := by
  cases h with
  | create aid d u obj hcr =>
    obtain ⟨action, h1, h2, h3, h4, h5, h6, h7, h8, h9, h10⟩ := create_object_ok hcr
    exact inv_append_new hInv h4 (by simp [h3]) (by simp [h3]) h5
  | update oid d u hup =>
    obtain ⟨cur, action, newObj, h1, h2, h3, h4, h5, h6, h7, h8, h9, h10⟩ := update_object_ok hup
    exact inv_append_next_version hInv h1 h4 (by simp [h3]) (by simp [h3]) h5
  | restore oid vid u hre =>
    obtain ⟨vObj, cur, h1, h2, h3⟩ := restore_object_version_ok hre
    subst h3
    exact inv_append_next_version hInv h2 rfl rfl rfl rfl

theorem reachable_inv {st : DBState} (h : Reachable st) : Inv st := by
  obtain ⟨acts, usrs, hrt⟩ := h
  induction hrt with
  | refl => exact inv_init acts usrs
  | tail h1 h2 ih => exact inv_step h2 ih

theorem iterPropsFields_eq_flatMap (path : List PathElement) (props : List (String × Schema))
    (data : JsonValue) :
    iterPropsFields path props data =
      props.flatMap (fun pr =>
        match getField data pr.1 with
        | some v => iterProps (path ++ [PathElement.key pr.1]) pr.2 v
        | none => []) := by
  induction props with
  | nil => simp [iterPropsFields]
  | cons p rest ih =>
    obtain ⟨name, s⟩ := p
    simp only [iterPropsFields, List.flatMap_cons, ih]

theorem iterElems_eq_enumFrom
    (f : List PathElement → JsonValue → List (List PathElement × Schema × JsonValue))
    (path : List PathElement) :
    ∀ (elems : List JsonValue) (i : Nat),
      iterElems f path i elems =
        (List.enumFrom i elems).flatMap (fun p => f (path ++ [PathElement.idx p.1]) p.2) := by
  intro elems
  induction elems with
  | nil => intro i; simp [iterElems]
  | cons x xs ih =>
    intro i
    simp only [iterElems, List.enumFrom, List.flatMap_cons, ih]

/-- C1: after a create or update, the reference tracker
(`_update_object_references`, run on the freshly persisted object) appends
to the referenced objects' log exactly the events demanded by the
specification: for every walked property, a "used in measurement" event
(naming the referencing object and the acting user) is emitted if and only
if the property is a `sample` leaf with a non-null current `object_id`, the
object's action has category measurement, and the current `object_id`
differs from the previous reference — where the previous reference is null
for version 0 and otherwise is the `object_id` found at the same path in
the immediately preceding version, with any missing-path traversal error
treated as "no previous reference" (`specTrackerEvents` is that rule,
verbatim).  Everything else (user log, stored objects) is untouched. -/
theorem tracker_emits_used_in_measurement_iff_spec
    (st : DBState) (obj : Object) (user_id : Nat) (action : Action) (st' : DBState)
    (ha : get_action st obj.action_id = Except.ok action)
    (h : _update_object_references st obj user_id = Except.ok st') :
    st'.objectLog = st.objectLog ++ specTrackerEvents st obj user_id action.type ∧
    st'.userLog = st.userLog ∧ st'.objects = st.objects := by
  have hch := update_references_ok ha h
  subst hch
  simp

/-- Witness for C1: updating measurement object 1 from referencing sample 5
to referencing sample 7 emits exactly the spec-mandated events (one "used
in measurement" event for sample 7). -/
theorem tracker_emits_used_in_measurement_iff_spec_witness :
    wSt2.objectLog = wStMid.objectLog ++ specTrackerEvents wStMid wObj1 1 wAction.type ∧
    wSt2.userLog = wStMid.userLog ∧ wSt2.objects = wStMid.objects :=
  tracker_emits_used_in_measurement_iff_spec wStMid wObj1 1 wAction wSt2
    (by decide) (by decide)

/-- C2: the schema walker's recursion rules: an `object` schema recurses
into exactly the properties present in both the schema's property list and
the data (missing data keys yield nothing, silently); an `array` schema
recurses into each element of the data paired with the `items` schema,
using the numeric index as path component; any other schema type yields the
single leaf `(path, schema, data)`; and the concrete example
`{type: object, properties: {a: {type: sample}}}` with `{a: {object_id: 5}}`
yields exactly `(["a"], {type: sample}, {object_id: 5})`. -/
theorem walker_recursion_rules :
    (∀ (path : List PathElement) (props : List (String × Schema)) (data : JsonValue),
      iterProps path (Schema.objectSchema props) data =
        props.flatMap (fun pr =>
          match getField data pr.1 with
          | some v => iterProps (path ++ [PathElement.key pr.1]) pr.2 v
          | none => [])) ∧
    (∀ (path : List PathElement) (s : Schema) (elems : List JsonValue),
      iterProps path (Schema.arraySchema s) (JsonValue.arr elems) =
        elems.enum.flatMap (fun p => iterProps (path ++ [PathElement.idx p.1]) s p.2)) ∧
    (∀ (path : List PathElement) (ty : String) (data : JsonValue),
      iterProps path (Schema.leafSchema ty) data = [(path, Schema.leafSchema ty, data)]) ∧
    iterProps [] (Schema.objectSchema [("a", Schema.leafSchema "sample")])
        (JsonValue.obj [("a", JsonValue.obj [("object_id", JsonValue.num 5)])]) =
      [([PathElement.key "a"], Schema.leafSchema "sample",
        JsonValue.obj [("object_id", JsonValue.num 5)])] := by
  refine ⟨?_, ?_, ?_, by decide⟩
  · intro path props data
    exact iterPropsFields_eq_flatMap path props data
  · intro path s elems
    show iterElems (fun p d => iterProps p s d) path 0 elems = _
    rw [iterElems_eq_enumFrom]
    rfl
  · intro path ty data
    rfl

/-- C3: `get_object` error classification: with a `version_id`, a
nonexistent object (no stored versions) raises `ObjectDoesNotExistError`,
an existing object without that version raises
`ObjectVersionDoesNotExistError`, and otherwise the stored version is
returned; with `version_id` omitted, the current version is returned, or
`ObjectDoesNotExistError` when the object does not exist. -/
theorem get_object_error_classification (st : DBState) (oid vid : Nat) :
    (objectVersions st oid = [] →
      get_object st oid (some vid) = Except.error Err.ObjectDoesNotExistError ∧
      get_object st oid none = Except.error Err.ObjectDoesNotExistError) ∧
    (objectVersions st oid ≠ [] → (∀ o ∈ objectVersions st oid, o.version_id ≠ vid) →
      get_object st oid (some vid) = Except.error Err.ObjectVersionDoesNotExistError) ∧
    (∀ o, Objects.get_object_version st oid vid = some o →
      get_object st oid (some vid) = Except.ok o) ∧
    (∀ cur, Objects.get_current_object st oid = some cur →
      get_object st oid none = Except.ok cur) := by
  refine ⟨?_, ?_, ?_, ?_⟩
  · intro he
    have hn : Objects.get_current_object st oid = none := get_current_object_none_iff.mpr he
    have hv : Objects.get_object_version st oid vid = none := by
      unfold Objects.get_object_version
      rw [he]
      rfl
    constructor <;> unfold get_object <;> simp [hn, hv]
  · intro hne hforall
    have hv : Objects.get_object_version st oid vid = none := by
      unfold Objects.get_object_version
      rw [List.find?_eq_none]
      intro x hx
      simpa using hforall x hx
    have hc : Objects.get_current_object st oid ≠ none := fun hcn =>
      hne (get_current_object_none_iff.mp hcn)
    unfold get_object
    cases hcc : Objects.get_current_object st oid with
    | none => exact absurd hcc hc
    | some cur => simp [hv]
  · intro o ho
    exact get_object_some_iff.mpr ho
  · intro cur hc
    unfold get_object
    simp [hc]

/-- Witness for C3: in a store holding only object 1 with version 0, object
2 does not exist, version 5 of object 1 does not exist, and version 0 and
the current version of object 1 are both returned. -/
theorem get_object_error_classification_witness :
    (get_object wSt1 2 (some 0) = Except.error Err.ObjectDoesNotExistError ∧
      get_object wSt1 2 none = Except.error Err.ObjectDoesNotExistError) ∧
    get_object wSt1 1 (some 5) = Except.error Err.ObjectVersionDoesNotExistError ∧
    get_object wSt1 1 (some 0) = Except.ok wObj0 ∧
    get_object wSt1 1 none = Except.ok wObj0 :=
  ⟨(get_object_error_classification wSt1 2 0).1 (by decide),
   (get_object_error_classification wSt1 1 5).2.1 (by decide) (by decide),
   (get_object_error_classification wSt1 1 0).2.2.1 wObj0 (by decide),
   (get_object_error_classification wSt1 1 0).2.2.2 wObj0 (by decide)⟩

/-- C4: restoring an existing version `vid` of an existing object appends a
brand-new top version whose data and schema equal version `vid`'s, with a
version number strictly greater than `vid` (so the counter is never
rewound and the new id differs from `vid`), and appends restore events to
both logs carrying the restored-from version id and the new version id. -/
theorem restore_creates_fresh_top_version
    (st st' : DBState) (oid vid u : Nat) (vObj : Object)
    (hv : Objects.get_object_version st oid vid = some vObj)
    (h : restore_object_version st oid vid u = Except.ok st') :
    ∃ newObj : Object,
      st'.objects = st.objects ++ [newObj] ∧
      newObj.object_id = oid ∧
      newObj.data = vObj.data ∧ newObj.schema = vObj.schema ∧
      vid < newObj.version_id ∧
      st'.objectLog = st.objectLog ++
        [ObjectLogEvent.restoreObjectVersion oid u vid newObj.version_id] ∧
      st'.userLog = st.userLog ++
        [UserLogEvent.restoreObjectVersion u oid vid newObj.version_id] := by
  obtain ⟨vObj', cur, h1, h2, h3⟩ := restore_object_version_ok h
  rw [h1] at hv
  have hvv : vObj' = vObj := Option.some.inj hv
  rw [hvv] at h1 h3
  subst h3
  refine ⟨{ object_id := oid, version_id := cur.version_id + 1, action_id := cur.action_id,
            user_id := u, data := vObj.data, schema := vObj.schema },
    rfl, rfl, rfl, rfl, ?_, rfl, rfl⟩
  have hmem : vObj ∈ objectVersions st oid := List.mem_of_find?_eq_some h1
  have hpred := List.find?_some h1
  have hvid : vObj.version_id = vid := by simpa using hpred
  obtain ⟨_, hmax⟩ := get_current_object_spec h2
  have := hmax vObj hmem
  simp only []
  omega

/-- Witness for C4: restoring version 0 of object 1 (referencing sample 5)
over current version 1 creates version 2 with version 0's data and schema
and restore events `(restored_from := 0, new := 2)` on both logs. -/
theorem restore_creates_fresh_top_version_witness :
    ∃ newObj : Object,
      wSt3.objects = wSt2.objects ++ [newObj] ∧
      newObj.object_id = 1 ∧
      newObj.data = wObj0.data ∧ newObj.schema = wObj0.schema ∧
      0 < newObj.version_id ∧
      wSt3.objectLog = wSt2.objectLog ++
        [ObjectLogEvent.restoreObjectVersion 1 1 0 newObj.version_id] ∧
      wSt3.userLog = wSt2.userLog ++
        [UserLogEvent.restoreObjectVersion 1 1 0 newObj.version_id] :=
  restore_creates_fresh_top_version wSt2 wSt3 1 0 1 wObj0 (by decide) (by decide)

/-- C5: in every reachable store, `get_object_versions` raises
`ObjectDoesNotExistError` exactly when the object has no stored versions,
and otherwise returns a nonempty sequence whose `version_id`s are, in
order, exactly `0, 1, ..., N-1` with no gaps. -/
theorem object_versions_gapless (st : DBState) (oid : Nat) (hr : Reachable st) :
    (get_object_versions st oid = Except.error Err.ObjectDoesNotExistError ↔
      objectVersions st oid = []) ∧
    (∀ vs, get_object_versions st oid = Except.ok vs →
      vs ≠ [] ∧ vs.map Object.version_id = List.range vs.length) := by
  have hInv := reachable_inv hr
  constructor
  · unfold get_object_versions Objects.get_object_versions
    cases hv : objectVersions st oid with
    | nil => simp
    | cons x xs => simp
  · intro vs hvs
    unfold get_object_versions Objects.get_object_versions at hvs
    cases hv : objectVersions st oid with
    | nil =>
      rw [hv] at hvs
      simp at hvs
    | cons x xs =>
      rw [hv] at hvs
      simp at hvs
      have hgap := hInv.1 oid
      rw [hv] at hgap
      rw [← hvs]
      exact ⟨by simp, hgap⟩

/-- Witness for C5: the store reached by one `create_object` from an empty
database holds versions `[0]` for object 1 and the error is equivalent to
emptiness. -/
theorem object_versions_gapless_witness :
    (get_object_versions wSt1 1 = Except.error Err.ObjectDoesNotExistError ↔
      objectVersions wSt1 1 = []) ∧
    (∀ vs, get_object_versions wSt1 1 = Except.ok vs →
      vs ≠ [] ∧ vs.map Object.version_id = List.range vs.length) :=
  object_versions_gapless wSt1 1
    ⟨wActs, wUsers, Relation.ReflTransGen.single
      (OpStep.create wSt0 wSt1 1 (wData 5) 1 wObj0 (by decide))⟩

/-- C6: `update_object` on a nonexistent object raises
`ObjectDoesNotExistError`; on an existing object it persists exactly one
new version whose `version_id` is exactly one greater than the previous
current version's. -/
theorem update_increments_version_by_one (st : DBState) (oid u : Nat) (d : JsonValue) :
    (Objects.get_current_object st oid = none →
      update_object st oid d u = Except.error Err.ObjectDoesNotExistError) ∧
    (∀ cur st', Objects.get_current_object st oid = some cur →
      update_object st oid d u = Except.ok st' →
      ∃ newObj, st'.objects = st.objects ++ [newObj] ∧
        newObj.object_id = oid ∧ newObj.version_id = cur.version_id + 1) := by
  constructor
  · exact update_object_error
  · intro cur st' hc hup
    obtain ⟨cur', action, newObj, h1, h2, h3, h4, h5⟩ := update_object_ok hup
    have hcc : cur' = cur := by
      rw [h1] at hc
      exact Option.some.inj hc
    subst hcc
    exact ⟨newObj, h4, by rw [h3], by rw [h3]⟩

/-- Witness for C6: updating object 1 (current version 0) persists version
1, and updating a store with no objects raises `ObjectDoesNotExistError`. -/
theorem update_increments_version_by_one_witness :
    update_object wSt0 1 (wData 7) 1 = Except.error Err.ObjectDoesNotExistError ∧
    (∃ newObj, wSt2.objects = wSt1.objects ++ [newObj] ∧
      newObj.object_id = 1 ∧ newObj.version_id = wObj0.version_id + 1) :=
  ⟨(update_increments_version_by_one wSt0 1 1 (wData 7)).1 (by decide),
   (update_increments_version_by_one wSt1 1 1 (wData 7)).2 wObj0 wSt2
     (by decide) (by decide)⟩

/-- C7: `create_object` raises `ActionDoesNotExistError` when the action is
unknown and `UserDoesNotExistError` when the action exists but the user is
unknown; in both cases only the error is returned, so no version, log
event, reference update or permission assignment is produced. -/
theorem create_object_checks_before_mutation (st : DBState) (aid u : Nat) (d : JsonValue) :
    (st.actions.lookup aid = none →
      create_object st aid d u = Except.error Err.ActionDoesNotExistError) ∧
    (∀ a, st.actions.lookup aid = some a → st.users.contains u = false →
      create_object st aid d u = Except.error Err.UserDoesNotExistError) := by
  constructor
  · intro hn
    unfold create_object get_action
    rw [hn]
  · intro a ha hu
    unfold create_object get_action get_user
    rw [ha, hu]
    simp

/-- Witness for C7: with only action 1 and user 1 present, creating with
action 2 fails with `ActionDoesNotExistError` and creating with user 9
fails with `UserDoesNotExistError`. -/
theorem create_object_checks_before_mutation_witness :
    create_object wSt0 2 (wData 5) 1 = Except.error Err.ActionDoesNotExistError ∧
    create_object wSt0 1 (wData 5) 9 = Except.error Err.UserDoesNotExistError :=
  ⟨(create_object_checks_before_mutation wSt0 2 1 (wData 5)).1 (by decide),
   (create_object_checks_before_mutation wSt0 1 9 (wData 5)).2 wAction
     (by decide) (by decide)⟩

/-- C8: `handle_send_mail_task` returns `False` (without raising) exactly
when the transport refuses the recipients, returns `True` on success, and
propagates every other transport failure unchanged. -/
theorem send_mail_task_error_classification
    (send : MailMessage → MailSendResult) (mail_sender : String) (data : MailData) :
    (send (buildMessage mail_sender data) = MailSendResult.recipientsRefused →
      handle_send_mail_task send mail_sender data = Except.ok false) ∧
    (send (buildMessage mail_sender data) = MailSendResult.sent →
      handle_send_mail_task send mail_sender data = Except.ok true) ∧
    (∀ e, send (buildMessage mail_sender data) = MailSendResult.otherFailure e →
      handle_send_mail_task send mail_sender data = Except.error e) := by
  unfold handle_send_mail_task
  refine ⟨?_, ?_, ?_⟩
  · intro h
    rw [h]
  · intro h
    rw [h]
  · intro e h
    rw [h]

/-- Witness for C8 at concrete transports: refusal yields `ok false`,
success `ok true`, and another failure propagates as the error `3`. -/
theorem send_mail_task_error_classification_witness :
    handle_send_mail_task (fun _ => MailSendResult.recipientsRefused) "x" wMailData =
      Except.ok false ∧
    handle_send_mail_task (fun _ => MailSendResult.sent) "x" wMailData = Except.ok true ∧
    handle_send_mail_task (fun _ => MailSendResult.otherFailure 3) "x" wMailData =
      Except.error 3 :=
  ⟨(send_mail_task_error_classification (fun _ => MailSendResult.recipientsRefused)
      "x" wMailData).1 rfl,
   (send_mail_task_error_classification (fun _ => MailSendResult.sent) "x" wMailData).2.1 rfl,
   (send_mail_task_error_classification (fun _ => MailSendResult.otherFailure 3)
      "x" wMailData).2.2 3 rfl⟩

/-- C9: a successful `restore_object_version` appends exactly one restore
event to each log and nothing else — in particular it never runs the
reference tracker, so every "used in measurement" event present afterwards
was already present before, even when the restored data's sample
references differ from the previously current version's. -/
theorem restore_does_not_invoke_tracker (st st' : DBState) (oid vid u : Nat)
    (h : restore_object_version st oid vid u = Except.ok st') :
    (∃ newVid, st'.objectLog = st.objectLog ++
        [ObjectLogEvent.restoreObjectVersion oid u vid newVid] ∧
      st'.userLog = st.userLog ++ [UserLogEvent.restoreObjectVersion u oid vid newVid]) ∧
    (∀ ref uu m, ObjectLogEvent.useObjectInMeasurement ref uu m ∈ st'.objectLog →
      ObjectLogEvent.useObjectInMeasurement ref uu m ∈ st.objectLog) := by
  obtain ⟨vObj, cur, h1, h2, h3⟩ := restore_object_version_ok h
  subst h3
  refine ⟨⟨cur.version_id + 1, by simp, by simp⟩, ?_⟩
  intro ref uu m hm
  simp at hm
  exact hm

/-- Witness for C9: restoring version 0 (sample 5) over current version 1
(sample 7) adds only the two restore events; the measurement events
afterwards are those already present. -/
theorem restore_does_not_invoke_tracker_witness :
    (∃ newVid, wSt3.objectLog = wSt2.objectLog ++
        [ObjectLogEvent.restoreObjectVersion 1 1 0 newVid] ∧
      wSt3.userLog = wSt2.userLog ++ [UserLogEvent.restoreObjectVersion 1 1 0 newVid]) ∧
    (∀ ref uu m, ObjectLogEvent.useObjectInMeasurement ref uu m ∈ wSt3.objectLog →
      ObjectLogEvent.useObjectInMeasurement ref uu m ∈ wSt2.objectLog) :=
  restore_does_not_invoke_tracker wSt2 wSt3 1 0 1 (by decide)

/-- C10: the `ObjectShare` constructor assigns `utc_datetime` only when the
argument is `None` (then set to the current UTC time); an explicitly
passed timestamp is silently dropped and the attribute is left unset. -/
theorem object_share_drops_explicit_timestamp
    (now object_id component_id : Nat) (policy : JsonValue) :
    (∀ t, (ObjectShare.construct now object_id component_id policy
        (some t)).utc_datetime = none) ∧
    (ObjectShare.construct now object_id component_id policy none).utc_datetime = some now := by
  constructor
  · intro t
    rfl
  · rfl

end SampleDB
